import Mathlib

/-
Verification of the musicburst aggregation pipeline (src/musicburst/main.py).

The embedding models the pure core of the program:
  - `OutputRecord` with its defaultdict-of-int counter table,
  - `collect_music_data`, the per-file aggregator,
  - `OutputRecord.fmt`, the row formatter (composed with the CSV writer's
    stringification of integer fields),
  - the batch driver's per-file loop (`write_rows`).
A parsed EAF document is modelled as `EafDoc`: the set of tier names, the
annotation data per tier name, and the document's full time interval, which
is exactly the interface of the external parser the program consumes.
-/

set_option autoImplicit false

namespace Musicburst

/-- Constant `MUSIC_TIER_NAME` from the source. -/
def MUSIC_TIER_NAME : String := "MusicBurst"

/-- Constant `SOURCE_TIER_NAME` from the source. -/
def SOURCE_TIER_NAME : String := "Source"

/-- One annotation segment as returned by the parser for a tier: the first
three components of the tuple are `(start, end, value)`; `extra` holds any
components beyond the first three (the source destructures `record[:3]`). -/
structure Segment where
  start : Int
  stop : Int
  value : String
  extra : List String := []
deriving Repr, DecidableEq

/-- The first three components `(start, end, value)` of a segment tuple. -/
def Segment.core (a : Segment) : Int × Int × String :=
  (a.start, a.stop, a.value)

/-- A parsed EAF document, exposing exactly what `collect_music_data` reads
from the pympi `Eaf` object: the file path it was loaded from, its tier
names, the annotation data per tier name, and the full time interval. -/
structure EafDoc where
  path : String
  tier_names : List String
  get_annotation_data_for_tier : String → List Segment
  get_full_time_interval : Int × Int

/-- Model of `os.path.basename`: the part of the path after the last slash. -/
def basename (p : String) : String :=
  String.mk ((p.data.reverse.takeWhile (fun c => c ≠ '/')).reverse)

/-- Model of Python `s.replace('.eaf', '')` at character level: delete every
left-to-right, non-overlapping occurrence of `.eaf`. -/
def stripEaf : List Char → List Char
  | '.' :: 'e' :: 'a' :: 'f' :: rest => stripEaf rest
  | c :: rest => c :: stripEaf rest
  | [] => []

/-- Splitting a character list on the separator `.eaf` (left-to-right,
non-overlapping), Python `str.split` style: the fragments between
occurrences, with empty fragments kept. Used as the spec-side description
of the filename transformation. -/
def splitOnEaf : List Char → List (List Char)
  | '.' :: 'e' :: 'a' :: 'f' :: rest => [] :: splitOnEaf rest
  | c :: rest =>
    match splitOnEaf rest with
    | [] => [[c]]
    | h :: t => (c :: h) :: t
  | [] => [[]]

/-- The counter table: `defaultdict(int)` keyed by label strings. -/
def dset (d : String → Int) (k : String) (v : Int) : String → Int :=
  fun k2 => if k2 = k then v else d k2

/-- `OutputRecord`: one row of the data table. `data` models the
`defaultdict(int)` counter mapping. -/
structure OutputRecord where
  filename : String
  data : String → Int

/-- `OutputRecord.__init__`: strip the directory, then delete every
occurrence of `.eaf` (Python `str.replace` replaces all occurrences);
counters start at zero. -/
def OutputRecord.init (filename : String) : OutputRecord :=
  { filename := String.mk (stripEaf (basename filename).data)
    data := fun _ => 0 }

/-- `OutputRecord.data_labels`: the five counter labels, in output order. -/
def data_labels : List String :=
  ["total time", "music segments", "music time", "singing segments", "singing time"]

/-- `OutputRecord.header`: `filename` followed by the data labels. -/
def header : List String := "filename" :: data_labels

/-- The zero-to-blank rule of `OutputRecord.fmt`, composed with the CSV
writer's stringification: a zero counter becomes the empty string, any other
value its decimal rendering. -/
def blank_zero (data : String → Int) (entry : String) : String :=
  let value := data entry
  if value = 0 then "" else toString value

/-- `OutputRecord.fmt`: the filename followed by each labelled counter in
the fixed label order, zeros blanked. -/
def OutputRecord.fmt (r : OutputRecord) : List String :=
  r.filename :: List.map (blank_zero r.data) data_labels

/-- `InputError`: error raised for a missing required tier. -/
structure InputError where
  message : String
deriving Repr, DecidableEq

/-- Body of the `MusicBurst` loop of `collect_music_data`: count the segment
and add its duration, with no filtering on the value. -/
def musicStep (r : OutputRecord) (a : Segment) : OutputRecord :=
  let d1 := dset r.data "music segments" (r.data "music segments" + 1)
  { r with data := dset d1 "music time" (d1 "music time" + (a.stop - a.start)) }

/-- Body of the `Source` loop of `collect_music_data`: skip the segment
unless its value is exactly `"1"`, otherwise count it and add its duration. -/
def sourceStep (r : OutputRecord) (a : Segment) : OutputRecord :=
  if a.value ≠ "1" then r
  else
    let d1 := dset r.data "singing segments" (r.data "singing segments" + 1)
    { r with data := dset d1 "singing time" (d1 "singing time" + (a.stop - a.start)) }

/-- `collect_music_data`: aggregate one parsed document into an
`OutputRecord`, or fail with `InputError` when the `MusicBurst` tier is
missing. -/
def collect_music_data (eaf : EafDoc) : Except InputError OutputRecord :=
  let output_record := OutputRecord.init eaf.path
  if MUSIC_TIER_NAME ∉ eaf.tier_names then
    Except.error ⟨"Missing " ++ MUSIC_TIER_NAME ++ " tier in file " ++ eaf.path⟩
  else
    let r1 := List.foldl musicStep output_record
      (eaf.get_annotation_data_for_tier MUSIC_TIER_NAME)
    let r2 := if SOURCE_TIER_NAME ∉ eaf.tier_names then r1
      else List.foldl sourceStep r1 (eaf.get_annotation_data_for_tier "Source")
    let se := eaf.get_full_time_interval
    Except.ok { r2 with data := dset r2.data "total time" (se.2 - se.1) }

/-- The per-file loop of `main`: one formatted row per file whose
aggregation succeeds; on `InputError` the file is skipped and the loop
continues. -/
def write_rows : List EafDoc → List (List String)
  | [] => []
  | d :: rest =>
    match collect_music_data d with
    | Except.error _ => write_rows rest
    | Except.ok r => OutputRecord.fmt r :: write_rows rest

/-- Whether an aggregation result is a success. -/
def okFlag : Except InputError OutputRecord → Bool
  | Except.ok _ => true
  | Except.error _ => false

/-- The successful record of an aggregation result, when there is one. -/
def okPart : Except InputError OutputRecord → Option OutputRecord
  | Except.ok r => some r
  | Except.error _ => none

/-- The successful record of an aggregation result, defaulting to an empty
record; used to state concrete evaluations. -/
def getRecord : Except InputError OutputRecord → OutputRecord
  | Except.ok r => r
  | Except.error _ => OutputRecord.init ""

/-- Total duration of a list of segments. -/
def sumDur (l : List Segment) : Int :=
  (l.map (fun a => a.stop - a.start)).sum

/-- The segments of a `Source` tier that the aggregator counts: exactly
those whose value is the string `"1"`. -/
def singFilter (l : List Segment) : List Segment :=
  l.filter (fun a => a.value == "1")

/-- The claimed filename transformation: strip the directory and remove a
single trailing `.eaf` suffix, preserving any other occurrence. Stated from
the spec's words, to be compared against `OutputRecord.init`. -/
def filename_claimed (p : String) : String :=
  let b := (basename p).data
  if List.isPrefixOf ['f', 'a', 'e', '.'] b.reverse then
    String.mk ((b.reverse.drop 4).reverse)
  else
    String.mk b

/-- A concrete document with both tiers: two `MusicBurst` segments of total
duration 30, three `Source` segments of which two carry the value `"1"`
with total duration 8, overall interval of length 100. -/
def doc1 : EafDoc where
  path := "audio/session1.eaf"
  tier_names := ["MusicBurst", "Source", "Other"]
  get_annotation_data_for_tier := fun t =>
    if t = "MusicBurst" then [⟨0, 10, "m", []⟩, ⟨20, 40, "burst", []⟩]
    else if t = "Source" then [⟨0, 5, "1", []⟩, ⟨5, 9, "0", []⟩, ⟨9, 12, "1", []⟩]
    else []
  get_full_time_interval := (0, 100)

/-- A concrete document with a `MusicBurst` tier but no `Source` tier, and
an overall interval spanning 8000000 ms. -/
def doc2 : EafDoc where
  path := "b.eaf"
  tier_names := ["MusicBurst"]
  get_annotation_data_for_tier := fun t =>
    if t = "MusicBurst" then [⟨2, 7, "x", []⟩] else []
  get_full_time_interval := (0, 8000000)

/-- A concrete document lacking the `MusicBurst` tier. -/
def doc3 : EafDoc where
  path := "c.eaf"
  tier_names := ["Voice", "Source"]
  get_annotation_data_for_tier := fun t =>
    if t = "Source" then [⟨0, 5, "1", []⟩] else []
  get_full_time_interval := (0, 50)

/-- A concrete document with the same tier names as `doc3` but different
path, segments and interval. -/
def doc4 : EafDoc where
  path := "d.eaf"
  tier_names := ["Voice", "Source"]
  get_annotation_data_for_tier := fun _ => []
  get_full_time_interval := (3, 9)

/-- `doc1` with extra components appended beyond the first three of several
annotation tuples; the first three components of every tuple agree with
`doc1`. -/
def doc5 : EafDoc where
  path := "audio/session1.eaf"
  tier_names := ["MusicBurst", "Source", "Other"]
  get_annotation_data_for_tier := fun t =>
    if t = "MusicBurst" then [⟨0, 10, "m", ["note"]⟩, ⟨20, 40, "burst", []⟩]
    else if t = "Source" then [⟨0, 5, "1", ["a", "b"]⟩, ⟨5, 9, "0", []⟩, ⟨9, 12, "1", ["c"]⟩]
    else []
  get_full_time_interval := (0, 100)

/-! Helper lemmas about the counter table and the two loop bodies. -/

theorem dset_same (d : String → Int) (k : String) (v : Int) : dset d k v k = v := by
  simp [dset]

theorem dset_other (d : String → Int) (k : String) (v : Int) (k2 : String) (h : k2 ≠ k) :
    dset d k v k2 = d k2 := by
  simp [dset, h]

theorem musicStep_segments (r : OutputRecord) (a : Segment) :
    (musicStep r a).data "music segments" = r.data "music segments" + 1 := by
  simp [musicStep, dset]

theorem musicStep_time (r : OutputRecord) (a : Segment) :
    (musicStep r a).data "music time" = r.data "music time" + (a.stop - a.start) := by
  simp [musicStep, dset]

theorem musicStep_other (r : OutputRecord) (a : Segment) (k : String)
    (h1 : k ≠ "music segments") (h2 : k ≠ "music time") :
    (musicStep r a).data k = r.data k := by
  simp [musicStep, dset, h1, h2]

theorem musicStep_filename (r : OutputRecord) (a : Segment) :
    (musicStep r a).filename = r.filename := rfl

theorem sourceStep_segments (r : OutputRecord) (a : Segment) :
    (sourceStep r a).data "singing segments" =
      r.data "singing segments" + (if a.value = "1" then 1 else 0) := by
  by_cases hv : a.value = "1" <;> simp [sourceStep, dset, hv]

theorem sourceStep_time (r : OutputRecord) (a : Segment) :
    (sourceStep r a).data "singing time" =
      r.data "singing time" + (if a.value = "1" then a.stop - a.start else 0) := by
  by_cases hv : a.value = "1" <;> simp [sourceStep, dset, hv]

theorem sourceStep_other (r : OutputRecord) (a : Segment) (k : String)
    (h1 : k ≠ "singing segments") (h2 : k ≠ "singing time") :
    (sourceStep r a).data k = r.data k := by
  by_cases hv : a.value = "1" <;> simp [sourceStep, dset, hv, h1, h2]

theorem sourceStep_filename (r : OutputRecord) (a : Segment) :
    (sourceStep r a).filename = r.filename := by
  unfold sourceStep
  split <;> rfl

theorem sumDur_cons (a : Segment) (l : List Segment) :
    sumDur (a :: l) = (a.stop - a.start) + sumDur l := by
  simp [sumDur]

theorem singFilter_cons (a : Segment) (l : List Segment) :
    singFilter (a :: l) = if a.value = "1" then a :: singFilter l else singFilter l := by
  by_cases hv : a.value = "1" <;> simp [singFilter, List.filter_cons, hv]

theorem foldl_music_segments (l : List Segment) : ∀ r : OutputRecord,
    (List.foldl musicStep r l).data "music segments" =
      r.data "music segments" + l.length := by
  induction l with
  | nil => intro r; simp
  | cons a l ih =>
    intro r
    rw [List.foldl_cons, ih, musicStep_segments]
    push_cast [List.length_cons]
    ring

theorem foldl_music_time (l : List Segment) : ∀ r : OutputRecord,
    (List.foldl musicStep r l).data "music time" = r.data "music time" + sumDur l := by
  induction l with
  | nil => intro r; simp [sumDur]
  | cons a l ih =>
    intro r
    rw [List.foldl_cons, ih, musicStep_time, sumDur_cons]
    ring

theorem foldl_music_other (l : List Segment) (k : String)
    (h1 : k ≠ "music segments") (h2 : k ≠ "music time") : ∀ r : OutputRecord,
    (List.foldl musicStep r l).data k = r.data k := by
  induction l with
  | nil => intro r; rfl
  | cons a l ih =>
    intro r
    rw [List.foldl_cons, ih, musicStep_other r a k h1 h2]

theorem foldl_music_filename (l : List Segment) : ∀ r : OutputRecord,
    (List.foldl musicStep r l).filename = r.filename := by
  induction l with
  | nil => intro r; rfl
  | cons a l ih =>
    intro r
    rw [List.foldl_cons, ih, musicStep_filename]

theorem foldl_source_segments (l : List Segment) : ∀ r : OutputRecord,
    (List.foldl sourceStep r l).data "singing segments" =
      r.data "singing segments" + (singFilter l).length := by
  induction l with
  | nil => intro r; simp [singFilter]
  | cons a l ih =>
    intro r
    rw [List.foldl_cons, ih, sourceStep_segments, singFilter_cons]
    by_cases hv : a.value = "1"
    · simp only [hv, if_true, List.length_cons]
      push_cast
      ring
    · simp [hv]

theorem foldl_source_time (l : List Segment) : ∀ r : OutputRecord,
    (List.foldl sourceStep r l).data "singing time" =
      r.data "singing time" + sumDur (singFilter l) := by
  induction l with
  | nil => intro r; simp [singFilter, sumDur]
  | cons a l ih =>
    intro r
    rw [List.foldl_cons, ih, sourceStep_time, singFilter_cons]
    by_cases hv : a.value = "1"
    · simp only [hv, if_true, sumDur_cons]
      ring
    · simp [hv]

theorem foldl_source_other (l : List Segment) (k : String)
    (h1 : k ≠ "singing segments") (h2 : k ≠ "singing time") : ∀ r : OutputRecord,
    (List.foldl sourceStep r l).data k = r.data k := by
  induction l with
  | nil => intro r; rfl
  | cons a l ih =>
    intro r
    rw [List.foldl_cons, ih, sourceStep_other r a k h1 h2]

theorem foldl_source_filename (l : List Segment) : ∀ r : OutputRecord,
    (List.foldl sourceStep r l).filename = r.filename := by
  induction l with
  | nil => intro r; rfl
  | cons a l ih =>
    intro r
    rw [List.foldl_cons, ih, sourceStep_filename]

theorem collect_error_of_missing (d : EafDoc) (h : MUSIC_TIER_NAME ∉ d.tier_names) :
    collect_music_data d =
      Except.error ⟨"Missing " ++ MUSIC_TIER_NAME ++ " tier in file " ++ d.path⟩ := by
  simp only [collect_music_data]
  rw [if_pos h]

/-- Full characterization of a successful aggregation: the tier must be
present, the filename is the stripped base name, the music counters count
and time the whole `MusicBurst` tier, the singing counters count and time
the value-`"1"` subset of the `Source` tier (and are zero when that tier is
absent), and the total time is the span of the full time interval. -/
theorem collect_ok_spec {d : EafDoc} {r : OutputRecord}
    (hok : collect_music_data d = Except.ok r) :
    MUSIC_TIER_NAME ∈ d.tier_names ∧
    r.filename = String.mk (stripEaf (basename d.path).data) ∧
    r.data "music segments" = ((d.get_annotation_data_for_tier MUSIC_TIER_NAME).length : Int) ∧
    r.data "music time" = sumDur (d.get_annotation_data_for_tier MUSIC_TIER_NAME) ∧
    (SOURCE_TIER_NAME ∈ d.tier_names →
      r.data "singing segments" =
        ((singFilter (d.get_annotation_data_for_tier SOURCE_TIER_NAME)).length : Int) ∧
      r.data "singing time" =
        sumDur (singFilter (d.get_annotation_data_for_tier SOURCE_TIER_NAME))) ∧
    (SOURCE_TIER_NAME ∉ d.tier_names →
      r.data "singing segments" = 0 ∧ r.data "singing time" = 0) ∧
    r.data "total time" = d.get_full_time_interval.2 - d.get_full_time_interval.1 := by
  by_cases hm : MUSIC_TIER_NAME ∈ d.tier_names
  case neg =>
    rw [collect_error_of_missing d hm] at hok
    exact absurd hok (by simp)
  case pos =>
    simp only [collect_music_data] at hok
    rw [if_neg (not_not_intro hm)] at hok
    by_cases hsrc : SOURCE_TIER_NAME ∈ d.tier_names
    · rw [if_neg (not_not_intro hsrc)] at hok
      injection hok with hr
      subst hr
      refine ⟨hm, ?_, ?_, ?_, ?_, fun hns => absurd hsrc hns, ?_⟩
      · dsimp only
        rw [foldl_source_filename, foldl_music_filename]
        rfl
      · dsimp only
        rw [dset_other _ _ _ _ (by decide), foldl_source_other _ _ (by decide) (by decide),
          foldl_music_segments]
        simp [OutputRecord.init]
      · dsimp only
        rw [dset_other _ _ _ _ (by decide), foldl_source_other _ _ (by decide) (by decide),
          foldl_music_time]
        simp [OutputRecord.init]
      · intro _
        constructor
        · dsimp only
          rw [dset_other _ _ _ _ (by decide), foldl_source_segments,
            foldl_music_other _ _ (by decide) (by decide)]
          simp [OutputRecord.init, SOURCE_TIER_NAME]
        · dsimp only
          rw [dset_other _ _ _ _ (by decide), foldl_source_time,
            foldl_music_other _ _ (by decide) (by decide)]
          simp [OutputRecord.init, SOURCE_TIER_NAME]
      · dsimp only
        exact dset_same _ _ _
    · rw [if_pos hsrc] at hok
      injection hok with hr
      subst hr
      refine ⟨hm, ?_, ?_, ?_, fun hs => absurd hs hsrc, ?_, ?_⟩
      · dsimp only
        rw [foldl_music_filename]
        rfl
      · dsimp only
        rw [dset_other _ _ _ _ (by decide), foldl_music_segments]
        simp [OutputRecord.init]
      · dsimp only
        rw [dset_other _ _ _ _ (by decide), foldl_music_time]
        simp [OutputRecord.init]
      · intro _
        constructor
        · dsimp only
          rw [dset_other _ _ _ _ (by decide), foldl_music_other _ _ (by decide) (by decide)]
          rfl
        · dsimp only
          rw [dset_other _ _ _ _ (by decide), foldl_music_other _ _ (by decide) (by decide)]
          rfl
      · dsimp only
        exact dset_same _ _ _

theorem collect_ok_exists (d : EafDoc) (hm : MUSIC_TIER_NAME ∈ d.tier_names) :
    ∃ r, collect_music_data d = Except.ok r := by
  simp only [collect_music_data]
  rw [if_neg (not_not_intro hm)]
  exact ⟨_, rfl⟩

theorem okFlag_collect (d : EafDoc) :
    okFlag (collect_music_data d) = false ↔ MUSIC_TIER_NAME ∉ d.tier_names := by
  by_cases hm : MUSIC_TIER_NAME ∈ d.tier_names
  · obtain ⟨r, hr⟩ := collect_ok_exists d hm
    rw [hr]
    simp [okFlag, hm]
  · rw [collect_error_of_missing d hm]
    simp [okFlag, hm]

/-! The filename transformation: deleting every left-to-right occurrence of
`.eaf` is the same as splitting on `.eaf` and concatenating the fragments. -/

theorem splitOnEaf_ne_nil (l : List Char) : splitOnEaf l ≠ [] := by
  rw [splitOnEaf.eq_def]
  split
  · simp
  · split <;> simp
  · simp

theorem stripEaf_eq_flatten (l : List Char) : stripEaf l = (splitOnEaf l).flatten := by
  induction l using stripEaf.induct with
  | case1 rest ih =>
    rw [stripEaf.eq_1, splitOnEaf.eq_1]
    simpa using ih
  | case2 c rest h ih =>
    rw [stripEaf.eq_2 c rest h, splitOnEaf.eq_2 c rest h]
    cases hs : splitOnEaf rest with
    | nil => exact absurd hs (splitOnEaf_ne_nil rest)
    | cons hd tl =>
      rw [hs] at ih
      simp [ih]
  | case3 => rfl

/-! Non-negativity of the counters. -/

theorem musicStep_nonneg {s : OutputRecord} {a : Segment}
    (hs : ∀ k, 0 ≤ s.data k) (ha : a.start ≤ a.stop) :
    ∀ k, 0 ≤ (musicStep s a).data k := by
  intro k
  by_cases h1 : k = "music time"
  · subst h1
    rw [musicStep_time]
    have := hs "music time"
    omega
  by_cases h2 : k = "music segments"
  · subst h2
    rw [musicStep_segments]
    have := hs "music segments"
    omega
  · rw [musicStep_other _ _ _ h2 h1]
    exact hs k

theorem sourceStep_nonneg {s : OutputRecord} {a : Segment}
    (hs : ∀ k, 0 ≤ s.data k) (ha : a.start ≤ a.stop) :
    ∀ k, 0 ≤ (sourceStep s a).data k := by
  intro k
  by_cases h1 : k = "singing time"
  · subst h1
    rw [sourceStep_time]
    have := hs "singing time"
    by_cases hv : a.value = "1" <;> simp [hv] <;> omega
  by_cases h2 : k = "singing segments"
  · subst h2
    rw [sourceStep_segments]
    have := hs "singing segments"
    by_cases hv : a.value = "1" <;> simp [hv] <;> omega
  · rw [sourceStep_other _ _ _ h2 h1]
    exact hs k

theorem foldl_music_nonneg {l : List Segment} (hl : ∀ a ∈ l, a.start ≤ a.stop) :
    ∀ r : OutputRecord, (∀ k, 0 ≤ r.data k) →
    ∀ k, 0 ≤ (List.foldl musicStep r l).data k := by
  induction l with
  | nil => intro r hr; exact hr
  | cons a t ih =>
    intro r hr
    rw [List.foldl_cons]
    exact ih (fun b hb => hl b (List.mem_cons_of_mem a hb))
      _ (musicStep_nonneg hr (hl a (List.mem_cons_self a t)))

theorem foldl_source_nonneg {l : List Segment} (hl : ∀ a ∈ l, a.start ≤ a.stop) :
    ∀ r : OutputRecord, (∀ k, 0 ≤ r.data k) →
    ∀ k, 0 ≤ (List.foldl sourceStep r l).data k := by
  induction l with
  | nil => intro r hr; exact hr
  | cons a t ih =>
    intro r hr
    rw [List.foldl_cons]
    exact ih (fun b hb => hl b (List.mem_cons_of_mem a hb))
      _ (sourceStep_nonneg hr (hl a (List.mem_cons_self a t)))

theorem init_nonneg (p : String) : ∀ k, 0 ≤ (OutputRecord.init p).data k := by
  intro k
  simp [OutputRecord.init]

/-! Congruence: the loop bodies read only the first three components of a
segment tuple. -/

theorem musicStep_congr (r : OutputRecord) {a b : Segment} (h : a.core = b.core) :
    musicStep r a = musicStep r b := by
  obtain ⟨h1, h2, h3⟩ : a.start = b.start ∧ a.stop = b.stop ∧ a.value = b.value := by
    simpa [Segment.core, Prod.ext_iff] using h
  simp [musicStep, h1, h2]

theorem sourceStep_congr (r : OutputRecord) {a b : Segment} (h : a.core = b.core) :
    sourceStep r a = sourceStep r b := by
  obtain ⟨h1, h2, h3⟩ : a.start = b.start ∧ a.stop = b.stop ∧ a.value = b.value := by
    simpa [Segment.core, Prod.ext_iff] using h
  simp [sourceStep, h1, h2, h3]

theorem foldl_music_congr {l1 l2 : List Segment}
    (h : l1.map Segment.core = l2.map Segment.core) :
    ∀ r : OutputRecord, List.foldl musicStep r l1 = List.foldl musicStep r l2 := by
  induction l1 generalizing l2 with
  | nil =>
    cases l2 with
    | nil => intro r; rfl
    | cons b t2 => simp at h
  | cons a t ih =>
    cases l2 with
    | nil => simp at h
    | cons b t2 =>
      intro r
      simp only [List.map_cons, List.cons.injEq] at h
      rw [List.foldl_cons, List.foldl_cons, musicStep_congr r h.1, ih h.2]

theorem foldl_source_congr {l1 l2 : List Segment}
    (h : l1.map Segment.core = l2.map Segment.core) :
    ∀ r : OutputRecord, List.foldl sourceStep r l1 = List.foldl sourceStep r l2 := by
  induction l1 generalizing l2 with
  | nil =>
    cases l2 with
    | nil => intro r; rfl
    | cons b t2 => simp at h
  | cons a t ih =>
    cases l2 with
    | nil => simp at h
    | cons b t2 =>
      intro r
      simp only [List.map_cons, List.cons.injEq] at h
      rw [List.foldl_cons, List.foldl_cons, sourceStep_congr r h.1, ih h.2]

/-! The claims. -/

/-- C1: for every parsed document whose aggregation succeeds, the record's
music segments counter equals the number of segments of the `MusicBurst`
tier, and its music time counter equals the sum of their durations
`end - start`; every segment of the tier counts, with no filtering on its
value. -/
theorem C1_music_counters (d : EafDoc) (r : OutputRecord)
    (hok : collect_music_data d = Except.ok r) :
    r.data "music segments" =
      ((d.get_annotation_data_for_tier MUSIC_TIER_NAME).length : Int) ∧
    r.data "music time" = sumDur (d.get_annotation_data_for_tier MUSIC_TIER_NAME) :=
  ⟨(collect_ok_spec hok).2.2.1, (collect_ok_spec hok).2.2.2.1⟩

/-- C1 witness: on `doc1` the aggregation succeeds with 2 music segments
totalling 30 ms. -/
theorem C1_witness :
    (getRecord (collect_music_data doc1)).data "music segments" = 2 ∧
    (getRecord (collect_music_data doc1)).data "music time" = 30 := by
  have h := C1_music_counters doc1 (getRecord (collect_music_data doc1)) (by rfl)
  rw [h.1, h.2]
  exact ⟨by decide, by decide⟩

/-- C2: for every parsed document whose aggregation succeeds and which has a
`Source` tier, exactly the segments of that tier whose value is the string
`"1"` are counted: the singing segments counter is the length of that
filtered subsequence and the singing time counter is the sum of its
durations. -/
theorem C2_singing_counters (d : EafDoc) (r : OutputRecord)
    (hok : collect_music_data d = Except.ok r)
    (hsrc : SOURCE_TIER_NAME ∈ d.tier_names) :
    r.data "singing segments" =
      ((singFilter (d.get_annotation_data_for_tier SOURCE_TIER_NAME)).length : Int) ∧
    r.data "singing time" =
      sumDur (singFilter (d.get_annotation_data_for_tier SOURCE_TIER_NAME)) :=
  (collect_ok_spec hok).2.2.2.2.1 hsrc

/-- C2 witness: on `doc1`, of the three `Source` segments only the two with
value `"1"` are counted, totalling 8 ms. -/
theorem C2_witness :
    (getRecord (collect_music_data doc1)).data "singing segments" = 2 ∧
    (getRecord (collect_music_data doc1)).data "singing time" = 8 := by
  have h := C2_singing_counters doc1 (getRecord (collect_music_data doc1))
    (by rfl) (by decide)
  rw [h.1, h.2]
  exact ⟨by decide, by decide⟩

/-- C3: for every parsed document whose aggregation succeeds, the record's
total time counter is `end - start` of the document's full time interval,
whatever the two tiers contain. -/
theorem C3_total_time (d : EafDoc) (r : OutputRecord)
    (hok : collect_music_data d = Except.ok r) :
    r.data "total time" =
      d.get_full_time_interval.2 - d.get_full_time_interval.1 :=
  (collect_ok_spec hok).2.2.2.2.2.2

/-- C3 witness: `doc2` has no `Source` tier and an overall span of
8000000 ms, and its record's total time is 8000000. -/
theorem C3_witness :
    SOURCE_TIER_NAME ∉ doc2.tier_names ∧
    (getRecord (collect_music_data doc2)).data "total time" = 8000000 := by
  have h := C3_total_time doc2 (getRecord (collect_music_data doc2)) (by rfl)
  rw [h]
  exact ⟨by decide, by decide⟩

/-- C4 counterexample: on the path `a.eaf.eaf` the code removes both
occurrences of `.eaf` and produces `a`, while stripping a single trailing
`.eaf` suffix (the claim's reading, `filename_claimed`) would produce
`a.eaf`. -/
theorem C4_counterexample :
    (OutputRecord.init "a.eaf.eaf").filename = "a" ∧
    filename_claimed "a.eaf.eaf" = "a.eaf" ∧
    (OutputRecord.init "a.eaf.eaf").filename ≠ filename_claimed "a.eaf.eaf" := by
  refine ⟨by decide, by decide, by decide⟩

/-- C4 (amended): the record's filename is the path's base name with every
left-to-right, non-overlapping occurrence of `.eaf` deleted — wherever it
occurs, not only as a trailing suffix — equivalently, the concatenation of
the fragments obtained by splitting the base name on `.eaf`. -/
theorem C4_filename_strips_all (p : String) :
    (OutputRecord.init p).filename =
      String.mk (splitOnEaf (basename p).data).flatten := by
  show String.mk (stripEaf (basename p).data) = _
  rw [stripEaf_eq_flatten]

/-- C5: aggregation fails exactly when the `MusicBurst` tier is missing
from the document's tier names; a document with a `MusicBurst` tier but no
`Source` tier yields a normal record whose singing counters are zero. -/
theorem C5_error_iff (d : EafDoc) :
    (okFlag (collect_music_data d) = false ↔ MUSIC_TIER_NAME ∉ d.tier_names) ∧
    (MUSIC_TIER_NAME ∈ d.tier_names → SOURCE_TIER_NAME ∉ d.tier_names →
      ∃ r, collect_music_data d = Except.ok r ∧
        r.data "singing segments" = 0 ∧ r.data "singing time" = 0) := by
  refine ⟨okFlag_collect d, fun hm hns => ?_⟩
  obtain ⟨r, hr⟩ := collect_ok_exists d hm
  exact ⟨r, hr, (collect_ok_spec hr).2.2.2.2.2.1 hns⟩

/-- C5 witness: `doc3` (no `MusicBurst` tier) fails, while `doc2` (no
`Source` tier) succeeds with zero singing counters. -/
theorem C5_witness :
    okFlag (collect_music_data doc3) = false ∧
    (∃ r, collect_music_data doc2 = Except.ok r ∧
      r.data "singing segments" = 0 ∧ r.data "singing time" = 0) :=
  ⟨(C5_error_iff doc3).1.mpr (by decide), (C5_error_iff doc2).2 (by decide) (by decide)⟩

/-- C6: the batch loop emits exactly one row per file whose aggregation
succeeds — the formatted record — and no row for a failing file, and the
rows keep the relative order of the input files: the output is the
order-preserving map of the formatter over the successfully aggregated
documents. -/
theorem C6_batch_rows (docs : List EafDoc) :
    write_rows docs =
      (docs.filterMap (fun d => okPart (collect_music_data d))).map OutputRecord.fmt := by
  induction docs with
  | nil => rfl
  | cons d rest ih =>
    cases h : collect_music_data d with
    | error e => simp [write_rows, h, okPart, List.filterMap_cons, ih]
    | ok r => simp [write_rows, h, okPart, List.filterMap_cons, ih]

/-- C7: the formatter returns the filename followed by the five counters in
the fixed order total time, music segments, music time, singing segments,
singing time; a counter equal to zero is rendered as the empty string and
any other counter as its decimal value. -/
theorem C7_fmt_row (r : OutputRecord) :
    OutputRecord.fmt r = [r.filename,
      (if r.data "total time" = 0 then "" else toString (r.data "total time")),
      (if r.data "music segments" = 0 then "" else toString (r.data "music segments")),
      (if r.data "music time" = 0 then "" else toString (r.data "music time")),
      (if r.data "singing segments" = 0 then "" else toString (r.data "singing segments")),
      (if r.data "singing time" = 0 then "" else toString (r.data "singing time"))] := rfl

/-- C8: when every segment of the two tiers and the full time interval
satisfy `end >= start`, every counter of the resulting record is
non-negative, and the counters are non-negative at every intermediate point
of the aggregation: after any prefix of the `MusicBurst` loop and after any
prefix of the `Source` loop. -/
theorem C8_counters_nonneg (d : EafDoc) (r : OutputRecord)
    (hmus : ∀ a ∈ d.get_annotation_data_for_tier MUSIC_TIER_NAME, a.start ≤ a.stop)
    (hsrc : ∀ a ∈ d.get_annotation_data_for_tier SOURCE_TIER_NAME, a.start ≤ a.stop)
    (hint : d.get_full_time_interval.1 ≤ d.get_full_time_interval.2)
    (hok : collect_music_data d = Except.ok r) :
    (∀ k, 0 ≤ r.data k) ∧
    (∀ l1 l2, d.get_annotation_data_for_tier MUSIC_TIER_NAME = l1 ++ l2 →
      ∀ k, 0 ≤ (List.foldl musicStep (OutputRecord.init d.path) l1).data k) ∧
    (∀ l1 l2, d.get_annotation_data_for_tier SOURCE_TIER_NAME = l1 ++ l2 →
      ∀ k, 0 ≤ (List.foldl sourceStep
        (List.foldl musicStep (OutputRecord.init d.path)
          (d.get_annotation_data_for_tier MUSIC_TIER_NAME)) l1).data k) := by
  have hmid : ∀ k, 0 ≤ (List.foldl musicStep (OutputRecord.init d.path)
      (d.get_annotation_data_for_tier MUSIC_TIER_NAME)).data k :=
    foldl_music_nonneg hmus _ (init_nonneg d.path)
  refine ⟨?_, ?_, ?_⟩
  · have hm : MUSIC_TIER_NAME ∈ d.tier_names := (collect_ok_spec hok).1
    simp only [collect_music_data] at hok
    rw [if_neg (not_not_intro hm)] at hok
    by_cases hs : SOURCE_TIER_NAME ∈ d.tier_names
    · rw [if_neg (not_not_intro hs)] at hok
      injection hok with hr
      subst hr
      intro k
      by_cases ht : k = "total time"
      · subst ht
        dsimp only
        rw [dset_same]
        omega
      · dsimp only
        rw [dset_other _ _ _ _ ht]
        exact foldl_source_nonneg hsrc _ hmid k
    · rw [if_pos hs] at hok
      injection hok with hr
      subst hr
      intro k
      by_cases ht : k = "total time"
      · subst ht
        dsimp only
        rw [dset_same]
        omega
      · dsimp only
        rw [dset_other _ _ _ _ ht]
        exact hmid k
  · intro l1 l2 hsplit k
    refine foldl_music_nonneg (fun a ha => hmus a ?_) _ (init_nonneg d.path) k
    rw [hsplit]
    exact List.mem_append_left l2 ha
  · intro l1 l2 hsplit k
    refine foldl_source_nonneg (fun a ha => hsrc a ?_) _ hmid k
    rw [hsplit]
    exact List.mem_append_left l2 ha

/-- C8 witness: on `doc1`, whose segments and interval all satisfy
`end >= start`, the resulting counters are non-negative. -/
theorem C8_witness :
    0 ≤ (getRecord (collect_music_data doc1)).data "music time" ∧
    0 ≤ (getRecord (collect_music_data doc1)).data "total time" := by
  have h := C8_counters_nonneg doc1 (getRecord (collect_music_data doc1))
    (by decide) (by decide) (by decide) (by rfl)
  exact ⟨h.1 "music time", h.1 "total time"⟩

/-- C9: whether aggregation fails is decided solely by the document's tier
names — two documents with the same tier names but arbitrary different
paths, segments and intervals fail or succeed together — and a failing
document contributes no row to the batch output, which is left exactly as
it would be without that document. -/
theorem C9_failure_atomic (d1 d2 : EafDoc) (rest : List EafDoc)
    (hnames : d1.tier_names = d2.tier_names) :
    okFlag (collect_music_data d1) = okFlag (collect_music_data d2) ∧
    (okFlag (collect_music_data d1) = false →
      write_rows (d1 :: rest) = write_rows rest) := by
  constructor
  · by_cases hm : MUSIC_TIER_NAME ∈ d1.tier_names
    · have hm2 : MUSIC_TIER_NAME ∈ d2.tier_names := hnames ▸ hm
      obtain ⟨r1, h1⟩ := collect_ok_exists d1 hm
      obtain ⟨r2, h2⟩ := collect_ok_exists d2 hm2
      rw [h1, h2]
      rfl
    · have hm2 : MUSIC_TIER_NAME ∉ d2.tier_names := hnames ▸ hm
      rw [collect_error_of_missing d1 hm, collect_error_of_missing d2 hm2]
      rfl
  · intro hfail
    cases h : collect_music_data d1 with
    | error e => simp [write_rows, h]
    | ok r =>
      rw [h] at hfail
      simp [okFlag] at hfail

/-- C9 witness: `doc3` and `doc4` share tier names and fail together, and
the failing `doc3` leaves the batch output of `[doc3, doc2]` identical to
that of `[doc2]`. -/
theorem C9_witness :
    okFlag (collect_music_data doc3) = okFlag (collect_music_data doc4) ∧
    write_rows [doc3, doc2] = write_rows [doc2] := by
  have h := C9_failure_atomic doc3 doc4 [doc2] rfl
  exact ⟨h.1, h.2 (by rfl)⟩

/-- C10: the aggregator reads only the first three components
`(start, end, value)` of every annotation tuple of the two tiers: two
documents equal except for components beyond the first three aggregate to
the same result. -/
theorem C10_first_three_components (d1 d2 : EafDoc)
    (hpath : d1.path = d2.path)
    (htiers : d1.tier_names = d2.tier_names)
    (hint : d1.get_full_time_interval = d2.get_full_time_interval)
    (hmus : (d1.get_annotation_data_for_tier MUSIC_TIER_NAME).map Segment.core =
      (d2.get_annotation_data_for_tier MUSIC_TIER_NAME).map Segment.core)
    (hsrc : (d1.get_annotation_data_for_tier SOURCE_TIER_NAME).map Segment.core =
      (d2.get_annotation_data_for_tier SOURCE_TIER_NAME).map Segment.core) :
    collect_music_data d1 = collect_music_data d2 := by
  simp only [collect_music_data]
  simp only [SOURCE_TIER_NAME] at hsrc
  rw [htiers, hpath, hint, foldl_music_congr hmus,
    foldl_source_congr hsrc]

/-- C10 witness: `doc5` is `doc1` with extra components appended to several
annotation tuples, and both aggregate to the same result. -/
theorem C10_witness : collect_music_data doc1 = collect_music_data doc5 :=
  C10_first_three_components doc1 doc5 rfl rfl rfl (by decide) (by decide)

end Musicburst
